import Mathlib

/-!
Verification of the audio data-loading pipeline
(speech_recognition/data/data_loader.py) against its specification.

The Python source is shallowly embedded: feature tensors are rational
matrices represented as lists of rows, Python lists are Lean lists,
filesystem- and randomness-dependent collaborators (torchaudio decoding,
sox probing, librosa STFT, numpy RNG) are abstracted as explicit function
parameters, and Python exceptions are `Except String` errors.
-/

namespace SpeechData

/-! ## Python-level helpers -/

/-- Python truthiness of an optional integer, as tested by
filter(None, xs) in parse_transcript: None is falsy and so is 0. -/
def pyTruthy : Option Nat → Bool
  | Option.none => false
  | Option.some n => decide (n ≠ 0)

/-- Python dict lookup d.get(c) for a dict built from an association list,
where a later binding for the same key overrides an earlier one. -/
def dictGet (pairs : List (Char × Nat)) (c : Char) : Option Nat :=
  pairs.foldl (fun acc p => if p.1 = c then some p.2 else acc) none

/-- Python max(xs, key=f) over a nonempty list b :: bs: keeps the current
maximum and replaces it only on a strictly larger key, so the first
element attaining the maximal key is returned. -/
def pyMaxAux (f : α → Nat) (m : α) : List α → α
  | [] => m
  | x :: xs => if f x > f m then pyMaxAux f x xs else pyMaxAux f m xs

/-! ## Transcript parsing (SpectrogramDataset.parse_transcript)

labels_map = dict([(labels[i], i) for i in range(len(labels))]);
transcript = transcript_file.read().replace('\n', '');
transcript = list(filter(None, [labels_map.get(x) for x in list(transcript)])).
-/

/-- The label vocabulary built in SpectrogramDataset.__init__:
the association list [(labels[i], i) for i in range(len(labels))]. -/
def labels_map (labels : List Char) : List (Char × Nat) :=
  labels.enum.map (fun p => (p.2, p.1))

/-- SpectrogramDataset.parse_transcript on the raw character content of the
transcript file: strip newline characters, look every remaining character up
in the vocabulary, and keep only the truthy lookup results
(filter(None, ...) keeps an index only if it is neither None nor 0). -/
def parse_transcript (labels : List Char) (content : List Char) : List Nat :=
  let stripped := content.filter (fun c => c != '\n')
  ((stripped.map (fun c => dictGet (labels_map labels) c)).filter pyTruthy).reduceOption

/-- Specification-level restatement of transcript parsing as the code
actually behaves: strip newlines, map through the vocabulary, drop both
unmapped characters and characters mapped to index 0, preserving order. -/
def parse_transcript_spec (labels : List Char) (content : List Char) : List Nat :=
  (content.filter (fun c => c != '\n')).filterMap (fun c =>
    match dictGet (labels_map labels) c with
    | Option.none => Option.none
    | Option.some n => if n = 0 then Option.none else Option.some n)

/-! ## Waveform loading (load_audio)

The decoded mono waveform is the abstract input list; only the
truncation/tiling logic guarded by audio_truncation > 0 is concrete code. -/

/-- The tiling loop of load_audio:
for _ in range(repeats): sound = np.concatenate((sound, appendage)),
where appendage is the original waveform captured before the loop. -/
def tileConcat (appendage : List ℚ) : Nat → List ℚ → List ℚ
  | 0, sound => sound
  | n + 1, sound => tileConcat appendage n (sound ++ appendage)

/-- The truncation/tiling part of load_audio applied to the decoded
waveform: if audio_truncation > 0 and exceeds the length, compute
repeats = ceil((audio_truncation - len) / len) (a ZeroDivisionError on an
empty waveform), tile, and finally slice sound[:audio_truncation]. -/
def load_audio_truncate (sound : List ℚ) (audio_truncation : Int) :
    Except String (List ℚ) :=
  if audio_truncation > 0 then
    if audio_truncation > (sound.length : Int) then
      if sound.length = 0 then
        Except.error "ZeroDivisionError: float division by zero"
      else
        let repeats : Int :=
          Int.ceil (((audio_truncation : ℚ) - (sound.length : ℚ)) / (sound.length : ℚ))
        Except.ok ((tileConcat sound repeats.toNat sound).take audio_truncation.toNat)
    else
      Except.ok (sound.take audio_truncation.toNat)
  else
    Except.ok sound

/-! ## Feature tensors and batch collation -/

/-- A sample as produced by SpectrogramDataset.__getitem__: a spectrogram
(tensor.size(0) = frequency rows, tensor.size(1) = time columns) and the
parsed transcript. -/
structure Sample where
  spect : List (List ℚ)
  target : List Nat
deriving Repr, DecidableEq, Inhabited

/-- A sample from SpectrogramAndPathDataset.__getitem__. -/
structure PathSample where
  spect : List (List ℚ)
  target : List Nat
  path : String
deriving Repr, DecidableEq, Inhabited

/-- A sample from SpectrogramAndLogitsDataset.__getitem__: the externally
loaded logits tensor is [time, classes]. -/
structure LogitSample where
  spect : List (List ℚ)
  target : List Nat
  path : String
  logit : List (List ℚ)
deriving Repr, DecidableEq, Inhabited

/-- tensor.size(0) of a 2D tensor: the number of rows. -/
def size0 (m : List (List ℚ)) : Nat := m.length

/-- tensor.size(1) of a 2D tensor: the number of columns (all rows of a
real tensor have the same length, so the first row is representative). -/
def size1 (m : List (List ℚ)) : Nat := (m.headD []).length

/-- One [freq_size, max_seqlength] slice of the zero-allocated batch tensor
after inputs[x][0].narrow(1, 0, seq_length).copy_(tensor): position (r, t)
holds the sample's entry for t < seq_length and the allocation fill 0
beyond it. -/
def copyInto (freq_size max_seqlength : Nat) (tensor : List (List ℚ)) :
    List (List ℚ) :=
  (List.range freq_size).map (fun r =>
    (List.range max_seqlength).map (fun t =>
      if t < size1 tensor then (tensor.getD r []).getD t 0 else 0))

/-- The padded 4D input tensor [N, 1, freq_size, max_seqlength]; the
singleton middle list is the channel dimension of size 1. -/
def collateInputs (freq_size max_seqlength : Nat)
    (spects : List (List (List ℚ))) : List (List (List (List ℚ))) :=
  spects.map (fun sp => [copyInto freq_size max_seqlength sp])

/-- Entry (r, t) of a 2D tensor, if in range. -/
def matEntry (m : List (List ℚ)) (r t : Nat) : Option ℚ :=
  m[r]?.bind (fun row => row[t]?)

/-- The four-component result of _collate_fn. -/
structure PlainBatchOut where
  inputs : List (List (List (List ℚ)))
  targets : List Nat
  input_percentages : List ℚ
  target_sizes : List Nat
deriving Repr, DecidableEq

/-- _collate_fn: pad a batch of (spect, target) samples to the longest
time length; max() over an empty batch raises ValueError. -/
def collate_fn (batch : List Sample) : Except String PlainBatchOut :=
  match batch with
  | [] => Except.error "ValueError: max() arg is an empty sequence"
  | b :: bs =>
    let longest := pyMaxAux (fun p => size1 p.spect) b bs
    let freq_size := size0 longest.spect
    let max_seqlength := size1 longest.spect
    Except.ok
      { inputs := collateInputs freq_size max_seqlength ((b :: bs).map Sample.spect)
        targets := ((b :: bs).map Sample.target).flatten
        input_percentages :=
          (b :: bs).map (fun s => (size1 s.spect : ℚ) / (max_seqlength : ℚ))
        target_sizes := (b :: bs).map (fun s => s.target.length) }

/-- A cell of the padded logits tensor: the fill value float('-inf') or an
ordinary number copied from a sample's logits. -/
inductive FVal where
  | ninf : FVal
  | fin : ℚ → FVal
deriving Repr, DecidableEq

/-- One [logit_len, nclasses] slice of the batch logits tensor after
logits.fill_(float('-inf')) and logits[x, :logit.size(0)].copy_(logit):
rows below the sample's own length hold its values, the rest stay -inf. -/
def fillLogits (logit_len nclasses : Nat) (logit : List (List ℚ)) :
    List (List FVal) :=
  (List.range logit_len).map (fun r =>
    if r < logit.length then
      (List.range nclasses).map (fun cc => FVal.fin ((logit.getD r []).getD cc 0))
    else
      List.replicate nclasses FVal.ninf)

/-- The six-component result of _collate_fn_paths and _collate_fn_logits:
(inputs, targets, input_percentages, target_sizes, paths, logits-or-None). -/
structure PathBatchOut where
  inputs : List (List (List (List ℚ)))
  targets : List Nat
  input_percentages : List ℚ
  target_sizes : List Nat
  paths : List String
  logits : Option (List (List (List FVal)))
deriving Repr, DecidableEq

/-- _collate_fn_paths: identical to _collate_fn, additionally collecting
the per-sample paths; the returned six-tuple ends with the literal None. -/
def collate_fn_paths (batch : List PathSample) : Except String PathBatchOut :=
  match batch with
  | [] => Except.error "ValueError: max() arg is an empty sequence"
  | b :: bs =>
    let longest := pyMaxAux (fun p => size1 p.spect) b bs
    let freq_size := size0 longest.spect
    let max_seqlength := size1 longest.spect
    Except.ok
      { inputs := collateInputs freq_size max_seqlength ((b :: bs).map PathSample.spect)
        targets := ((b :: bs).map PathSample.target).flatten
        input_percentages :=
          (b :: bs).map (fun s => (size1 s.spect : ℚ) / (max_seqlength : ℚ))
        target_sizes := (b :: bs).map (fun s => s.target.length)
        paths := (b :: bs).map PathSample.path
        logits := none }

/-- _collate_fn_logits: the path collator plus the padded logits tensor
[N, logit_len, nclasses] where logit_len is the size(0) of the longest
logits in the batch and nclasses is batch[0][3].size(-1). -/
def collate_fn_logits (batch : List LogitSample) : Except String PathBatchOut :=
  match batch with
  | [] => Except.error "ValueError: max() arg is an empty sequence"
  | b :: bs =>
    let longest := pyMaxAux (fun p => size1 p.spect) b bs
    let freq_size := size0 longest.spect
    let max_seqlength := size1 longest.spect
    let longest_logit := pyMaxAux (fun p => p.logit.length) b bs
    let logit_len := longest_logit.logit.length
    let nclasses := size1 b.logit
    Except.ok
      { inputs := collateInputs freq_size max_seqlength ((b :: bs).map LogitSample.spect)
        targets := ((b :: bs).map LogitSample.target).flatten
        input_percentages :=
          (b :: bs).map (fun s => (size1 s.spect : ℚ) / (max_seqlength : ℚ))
        target_sizes := (b :: bs).map (fun s => s.target.length)
        paths := (b :: bs).map LogitSample.path
        logits := some ((b :: bs).map (fun s => fillLogits logit_len nclasses s.logit)) }

/-! ## Metadata pipeline (AudioDataLoader)

get_meta touches the filesystem and a sox duration probe, so it is
abstracted as a provenance oracle gm : Nat -> MetaTuple mapping a manifest
index to (audio_path, transcript_path, duration, size_kb). -/

/-- SpectrogramDataset.get_meta result for one manifest index. -/
structure MetaTuple where
  audio_path : String
  transcript_path : String
  duration : ℚ
  size_kb : ℚ
deriving Repr, DecidableEq, Inhabited

/-- One entry of item_meta: the get_meta tuple with the sample's
seq_length appended, so positions 0..4 are
(audio_path, transcript_path, duration, size_kb, seq_length). -/
structure ItemMeta where
  audio_path : String
  transcript_path : String
  duration : ℚ
  size_kb : ℚ
  seq_length : Nat
deriving Repr, DecidableEq, Inhabited

/-- The item-level metadata built for batch position x in my_collate_fn:
list(get_meta(access_history[x])) with seq_length appended. -/
def itemOf (gm : Nat → MetaTuple) (hist : List Nat) (batch : List Sample)
    (x : Nat) : ItemMeta :=
  let m := gm (hist.getD x 0)
  { audio_path := m.audio_path
    transcript_path := m.transcript_path
    duration := m.duration
    size_kb := m.size_kb
    seq_length := size1 ((batch.getD x default).spect) }

/-- One aggregation pass of my_collate_fn: batch_meta[i] += meta for the
fixed positions i in [2, 3, 4], leaving positions 0 and 1 untouched. -/
def aggStep (shared item : ItemMeta) : ItemMeta :=
  { shared with
    duration := shared.duration + item.duration
    size_kb := shared.size_kb + item.size_kb
    seq_length := shared.seq_length + item.seq_length }

/-- The loop body of my_collate_fn acting on the pair
(object shared by batch_meta and item_meta[0], remaining item_meta tail).
In the source batch_meta is assigned the very list object item_meta[-1] on
the first iteration, so later batch_meta[i] += meta mutations are visible
through item_meta[0]; the shared object is therefore represented once. -/
def metaFoldStep (acc : Option ItemMeta × List ItemMeta) (item : ItemMeta) :
    Option ItemMeta × List ItemMeta :=
  match acc.1 with
  | none => (some item, acc.2)
  | some shared => (some (aggStep shared item), acc.2 ++ [item])

/-- The item metadata of every batch position, in order. -/
def metaItems (gm : Nat → MetaTuple) (hist : List Nat) (batch : List Sample) :
    List ItemMeta :=
  (List.range batch.length).map (itemOf gm hist batch)

/-- Final metadata state of my_collate_fn's loop: the shared
batch_meta/item_meta[0] object and the item_meta entries after it. -/
def metaFold (gm : Nat → MetaTuple) (hist : List Nat) (batch : List Sample) :
    Option ItemMeta × List ItemMeta :=
  (metaItems gm hist batch).foldl metaFoldStep (none, [])

/-- The item_meta list as pushed into the metadata record: the shared
head object (aliased by batch_meta) followed by the remaining entries. -/
def item_meta_final (gm : Nat → MetaTuple) (hist : List Nat)
    (batch : List Sample) : List ItemMeta :=
  match (metaFold gm hist batch).1 with
  | none => []
  | some shared => shared :: (metaFold gm hist batch).2

/-- One record pushed onto meta_buffer:
the dict literal in my_collate_fn with keys iter, item and batch. -/
structure MetaRecord where
  iter : Nat
  item : List ItemMeta
  batch : Option ItemMeta
deriving Repr, DecidableEq, Inhabited

/-- The loader-owned mutable state read and written by my_collate_fn:
the iteration counter, the metadata buffer and the dataset's
access_history list. -/
structure LoaderState where
  iter : Nat
  meta_buffer : List MetaRecord
  access_history : List Nat
deriving Repr, DecidableEq, Inhabited

/-- AudioDataLoader.my_collate_fn: the plain collation plus metadata
bookkeeping; it increments iter, pushes the metadata record onto
meta_buffer, and resets the dataset's access_history to []. -/
def my_collate_fn (gm : Nat → MetaTuple) (st : LoaderState)
    (batch : List Sample) :
    Except String (PlainBatchOut × MetaRecord × LoaderState) :=
  match batch with
  | [] => Except.error "ValueError: max() arg is an empty sequence"
  | b :: bs =>
    let longest := pyMaxAux (fun p => size1 p.spect) b bs
    let freq_size := size0 longest.spect
    let max_seqlength := size1 longest.spect
    let record : MetaRecord :=
      { iter := st.iter + 1
        item := item_meta_final gm st.access_history (b :: bs)
        batch := (metaFold gm st.access_history (b :: bs)).1 }
    Except.ok
      ({ inputs := collateInputs freq_size max_seqlength ((b :: bs).map Sample.spect)
         targets := ((b :: bs).map Sample.target).flatten
         input_percentages :=
           (b :: bs).map (fun s => (size1 s.spect : ℚ) / (max_seqlength : ℚ))
         target_sizes := (b :: bs).map (fun s => s.target.length) },
       record,
       { iter := st.iter + 1
         meta_buffer := st.meta_buffer ++ [record]
         access_history := [] })

/-- The polling loop of pop_meta_buffer with the buffer empty throughout:
while timeout < 5: sleep(0.01); timeout += 0.01, counting the sleeps.
The timeout accumulator is modelled as an exact rational; the fuel
argument only bounds the recursion and is chosen large enough that the
loop exits on its own condition. -/
def pollLoopAux : Nat → ℚ → Nat → Nat
  | 0, _, n => n
  | fuel + 1, timeout, n =>
    if timeout < 5 then pollLoopAux fuel (timeout + 1 / 100) (n + 1) else n

/-- Total number of sleep(0.01) calls pop_meta_buffer performs on an empty
buffer before it falls through to the pop. -/
def pollSleeps : Nat := pollLoopAux 1000 0 0

/-- AudioDataLoader.pop_meta_buffer on a buffer that no concurrent
producer refills: returns the number of 10 ms sleeps performed together
with the result of self.meta_buffer.pop(0), which on an empty list raises
IndexError. -/
def pop_meta_buffer (buffer : List MetaRecord) :
    Nat × Except String (MetaRecord × List MetaRecord) :=
  match buffer with
  | [] => (pollSleeps, Except.error "IndexError: pop from empty list")
  | r :: rest => (0, Except.ok (r, rest))

/-! ## SpectrogramParser construction and noise injector wiring -/

/-- A Python value as passed positionally to NoiseInjection.__init__. -/
inductive PyVal where
  | vstr : String → PyVal
  | vint : Int → PyVal
  | vpair : ℚ → ℚ → PyVal
  | vnone : PyVal
deriving Repr, DecidableEq

/-- The state NoiseInjection.__init__ builds: it keeps the path argument
(librosa.util.find_files over it is an external filesystem effect) and the
noise_levels argument. -/
structure NoiseInjection where
  path_arg : PyVal
  noise_levels_arg : PyVal
deriving Repr, DecidableEq

/-- A Python-level positional call of NoiseInjection.__init__. The declared
signature is (self, path=None, noise_levels=(0, 0.5)): at most two
positional arguments besides self are accepted, and a third positional
argument raises TypeError before any attribute is assigned. -/
def call_NoiseInjection_init (args : List PyVal) : Except String NoiseInjection :=
  if args.length > 2 then
    Except.error "TypeError: NoiseInjection.__init__ takes at most 2 positional arguments"
  else
    Except.ok
      { path_arg := args.getD 0 PyVal.vnone
        noise_levels_arg := args.getD 1 (PyVal.vpair 0 (1 / 2)) }

/-- The audio configuration dictionary consumed by
SpectrogramParser.__init__. -/
structure AudioConf where
  window_stride : ℚ
  window_size : ℚ
  sample_rate : Int
  window : String
  noise_dir : Option String
  noise_levels : ℚ × ℚ
  noise_prob : Option ℚ
deriving Repr, DecidableEq

/-- windows.get(audio_conf['window'], windows['hamming']): an unknown
window name falls back to hamming. -/
def resolveWindow (name : String) : String :=
  if name ∈ ["hamming", "hann", "blackman", "bartlett"] then name else "hamming"

/-- Python int(q): truncation of a rational toward zero. -/
def pyInt (q : ℚ) : Int := q.num.tdiv (q.den : Int)

/-- The attribute state built by SpectrogramParser.__init__. -/
structure SpectrogramParserState where
  window_stride : ℚ
  window_size : ℚ
  sample_rate : Int
  window : String
  normalize : Bool
  augment : Bool
  noiseInjector : Option NoiseInjection
  noise_prob : Option ℚ
  force_frames : Int
deriving Repr, DecidableEq

/-- SpectrogramParser.__init__: when noise_dir is set it evaluates
NoiseInjection(audio_conf['noise_dir'], self.sample_rate,
audio_conf['noise_levels']) — three positional arguments — and any
exception from that call propagates out of the constructor. -/
def SpectrogramParser_init (audio_conf : AudioConf) (normalize augment : Bool)
    (force_duration : ℚ) : Except String SpectrogramParserState :=
  let injector : Except String (Option NoiseInjection) :=
    match audio_conf.noise_dir with
    | some dir =>
      match call_NoiseInjection_init
          [PyVal.vstr dir, PyVal.vint audio_conf.sample_rate,
           PyVal.vpair audio_conf.noise_levels.1 audio_conf.noise_levels.2] with
      | Except.error e => Except.error e
      | Except.ok inj => Except.ok (some inj)
    | none => Except.ok none
  match injector with
  | Except.error e => Except.error e
  | Except.ok inj =>
    Except.ok
      { window_stride := audio_conf.window_stride
        window_size := audio_conf.window_size
        sample_rate := audio_conf.sample_rate
        window := resolveWindow audio_conf.window
        normalize := normalize
        augment := augment
        noiseInjector := inj
        noise_prob := audio_conf.noise_prob
        force_frames := pyInt (force_duration * (audio_conf.sample_rate : ℚ)) }

/-! ## Dataset __getitem__ variants and the access history

parse_audio (STFT over a decoded waveform) and the transcript file reader
are abstracted as function parameters; only the manifest lookup, the
access-history effect and the transcript parsing are concrete code. -/

/-- The state of a SpectrogramDataset: the manifest entries and the
access_history list. -/
structure DatasetState where
  ids : List (String × String)
  access_history : List Nat
deriving Repr, DecidableEq, Inhabited

/-- SpectrogramDataset.__getitem__: looks the index up in the manifest
(IndexError when out of range), appends the index to access_history, and
returns (spect, transcript) with the possibly-updated state. -/
def SpectrogramDataset_getitem (pa : String → List (List ℚ))
    (readFile : String → List Char) (labels : List Char)
    (st : DatasetState) (index : Nat) :
    Except String ((List (List ℚ)) × List Nat × DatasetState) :=
  match st.ids[index]? with
  | none => Except.error "IndexError: list index out of range"
  | some sample =>
    let st2 : DatasetState :=
      { st with access_history := st.access_history ++ [index] }
    Except.ok (pa sample.1, parse_transcript labels (readFile sample.2), st2)

/-- SpectrogramAndPathDataset.__getitem__: returns
(spect, transcript, audio_path) and does not touch access_history. -/
def SpectrogramAndPathDataset_getitem (pa : String → List (List ℚ))
    (readFile : String → List Char) (labels : List Char)
    (st : DatasetState) (index : Nat) :
    Except String ((List (List ℚ)) × List Nat × String × DatasetState) :=
  match st.ids[index]? with
  | none => Except.error "IndexError: list index out of range"
  | some sample =>
    Except.ok (pa sample.1, parse_transcript labels (readFile sample.2),
               sample.1, st)

/-- Modelled os.path.split for slash-separated relative paths: splits at
the last slash; a path without a slash has an empty head. -/
def ospath_split (p : String) : String × String :=
  let parts := p.splitOn "/"
  if parts.length ≤ 1 then ("", p)
  else (String.intercalate "/" parts.dropLast, parts.getLastD "")

/-- Modelled os.path.splitext on a bare filename: splits off the extension
at the last dot, if any. -/
def lastDotSplit (s : String) : String × String :=
  let rev := s.toList.reverse
  match rev.findIdx? (fun c => c = '.') with
  | none => (s, "")
  | some i =>
    (String.mk (s.toList.take (s.toList.length - i - 1)),
     String.mk (s.toList.drop (s.toList.length - i - 1)))

/-- The logits file path computed in SpectrogramAndLogitsDataset:
os.path.join(dirname(dirname(audio_path)), "logits", basename + ".pth"). -/
def logit_path_of (audio_path : String) : String :=
  let sp1 := ospath_split audio_path
  let sp2 := ospath_split sp1.1
  String.intercalate "/" [sp2.1, "logits", (lastDotSplit sp1.2).1 ++ ".pth"]

/-- SpectrogramAndLogitsDataset.__getitem__: returns
(spect, transcript, audio_path, logits) and does not touch
access_history; torch.load is abstracted as loadLogit. -/
def SpectrogramAndLogitsDataset_getitem (pa : String → List (List ℚ))
    (readFile : String → List Char) (labels : List Char)
    (loadLogit : String → List (List ℚ))
    (st : DatasetState) (index : Nat) :
    Except String ((List (List ℚ)) × List Nat × String × List (List ℚ) × DatasetState) :=
  match st.ids[index]? with
  | none => Except.error "IndexError: list index out of range"
  | some sample =>
    Except.ok (pa sample.1, parse_transcript labels (readFile sample.2),
               sample.1, loadLogit (logit_path_of sample.1), st)

/-- The largest time length occurring in a batch (specification side). -/
def maxTimeLength (times : List Nat) : Nat := times.foldr max 0

/-- The item metadata of batch positions 1 and onward: every entry that
stays untouched after the first loop iteration aliases batch_meta. -/
def metaTail (gm : Nat → MetaTuple) (hist : List Nat) (b : Sample)
    (bs : List Sample) : List ItemMeta :=
  (List.range bs.length).map (fun i => itemOf gm hist (b :: bs) (i + 1))

/-! ## Concrete data for witnesses and counterexamples -/

/-- Concrete logits-variant sample with auxiliary length 3, 10 classes. -/
def c8sampleA : LogitSample :=
  { spect := [[1]], target := [0], path := "a.wav",
    logit := List.replicate 3 (List.replicate 10 1) }

/-- Concrete logits-variant sample with auxiliary length 6, 10 classes. -/
def c8sampleB : LogitSample :=
  { spect := [[2]], target := [1], path := "b.wav",
    logit := List.replicate 6 (List.replicate 10 2) }

/-- Concrete provenance oracle distinguishing manifest indices 0 and 1. -/
def gmC2 : Nat → MetaTuple := fun i =>
  if i = 0 then
    { audio_path := "a.wav", transcript_path := "a.txt",
      duration := 1, size_kb := 2 }
  else
    { audio_path := "b.wav", transcript_path := "b.txt",
      duration := 2, size_kb := 5 }

/-- Concrete sample with three time frames. -/
def c2sampleA : Sample := { spect := [[1, 1, 1]], target := [1] }

/-- Concrete sample with two time frames. -/
def c2sampleB : Sample := { spect := [[2, 2]], target := [2] }

/-- The two-sample batch used against the metadata pipeline. -/
def batchC2 : List Sample := [c2sampleA, c2sampleB]

/-- The aggregate-corrupted entry observed at item position 0 of the
pushed record for batchC2. -/
def c2aggregate : ItemMeta :=
  { audio_path := "a.wav", transcript_path := "a.txt",
    duration := 3, size_kb := 7, seq_length := 5 }

/-- Sample 0's own provenance entry, as the claim expects it. -/
def c2own : ItemMeta :=
  { audio_path := "a.wav", transcript_path := "a.txt",
    duration := 1, size_kb := 2, seq_length := 3 }

/-! ## Helper lemmas -/

theorem pyMaxAux_mem (f : α → Nat) (m : α) (l : List α) :
    pyMaxAux f m l ∈ m :: l := by
  induction l generalizing m with
  | nil => simp [pyMaxAux]
  | cons x xs ih =>
    simp only [pyMaxAux]
    by_cases h : f x > f m
    · rw [if_pos h]
      rcases List.mem_cons.mp (ih x) with h2 | h2
      · simp [h2]
      · simp [h2]
    · rw [if_neg h]
      rcases List.mem_cons.mp (ih m) with h2 | h2
      · simp [h2]
      · simp [h2]

theorem le_pyMaxAux (f : α → Nat) (m : α) (l : List α) :
    ∀ x ∈ m :: l, f x ≤ f (pyMaxAux f m l) := by
  induction l generalizing m with
  | nil =>
    intro x hx
    rcases List.mem_cons.mp hx with h | h
    · subst h; simp [pyMaxAux]
    · simp at h
  | cons y ys ih =>
    intro x hx
    simp only [pyMaxAux]
    by_cases h : f y > f m
    · rw [if_pos h]
      rcases List.mem_cons.mp hx with h1 | h1
      · subst h1
        exact le_trans (le_of_lt h) (ih y y (List.mem_cons_self y ys))
      · exact ih y x h1
    · rw [if_neg h]
      rcases List.mem_cons.mp hx with h1 | h1
      · subst h1; exact ih x x (List.mem_cons_self x ys)
      · rcases List.mem_cons.mp h1 with h2 | h2
        · subst h2
          exact le_trans (Nat.le_of_not_lt h) (ih m m (List.mem_cons_self m ys))
        · exact ih m x (List.mem_cons.mpr (Or.inr h2))

theorem foldr_max_le {l : List Nat} {c : Nat} (h : ∀ x ∈ l, x ≤ c) :
    l.foldr max 0 ≤ c := by
  induction l with
  | nil => simp
  | cons a as ih =>
    exact max_le (h a (List.mem_cons_self a as))
      (ih (fun x hx => h x (List.mem_cons.mpr (Or.inr hx))))

theorem le_foldr_max {l : List Nat} {x : Nat} (h : x ∈ l) :
    x ≤ l.foldr max 0 := by
  induction l with
  | nil => simp at h
  | cons a as ih =>
    rcases List.mem_cons.mp h with h1 | h1
    · subst h1; exact le_max_left _ _
    · exact le_trans (ih h1) (le_max_right _ _)

theorem pyMaxAux_key (f : α → Nat) (b : α) (bs : List α) :
    f (pyMaxAux f b bs) = maxTimeLength ((b :: bs).map f) := by
  apply Nat.le_antisymm
  · exact le_foldr_max (List.mem_map_of_mem f (pyMaxAux_mem f b bs))
  · apply foldr_max_le
    intro x hx
    rcases List.mem_map.mp hx with ⟨a, ha, rfl⟩
    exact le_pyMaxAux f b bs a ha

theorem filter_pyTruthy_reduceOption (l : List (Option Nat)) :
    (l.filter pyTruthy).reduceOption =
      l.filterMap (fun o =>
        match o with
        | Option.none => Option.none
        | Option.some n => if n = 0 then Option.none else Option.some n) := by
  induction l with
  | nil => rfl
  | cons a as ih =>
    cases a with
    | none => simp [pyTruthy, List.filter_cons, List.filterMap_cons, ih]
    | some n =>
      by_cases h : n = 0
      · subst h
        simp [pyTruthy, List.filter_cons, List.filterMap_cons, ih]
      · simp [pyTruthy, List.filter_cons, List.filterMap_cons, h, ih,
          List.reduceOption_cons_of_some]

theorem tileConcat_eq (app : List ℚ) (n : Nat) (s : List ℚ) :
    tileConcat app n s = s ++ (List.replicate n app).flatten := by
  induction n generalizing s with
  | zero => simp [tileConcat]
  | succ n ih =>
    rw [tileConcat, ih, List.replicate_succ, List.flatten_cons,
      List.append_assoc]

theorem flatten_replicate_length (n : Nat) (s : List ℚ) :
    (List.replicate n s).flatten.length = n * s.length := by
  simp [List.length_flatten, List.map_replicate, List.sum_replicate,
    smul_eq_mul]

theorem flatten_replicate_getElem (n : Nat) (s : List ℚ) :
    ∀ i, i < n * s.length →
      (List.replicate n s).flatten[i]? = s[i % s.length]? := by
  induction n with
  | zero => intro i hi; simp at hi
  | succ n ih =>
    intro i hi
    rw [List.replicate_succ, List.flatten_cons]
    by_cases h : i < s.length
    · rw [List.getElem?_append_left h, Nat.mod_eq_of_lt h]
    · push_neg at h
      rw [List.getElem?_append_right h]
      have hmod : (i - s.length) % s.length = i % s.length := by
        conv_rhs => rw [← Nat.sub_add_cancel h]
        rw [Nat.add_mod_right]
      have hmul : (n + 1) * s.length = n * s.length + s.length := by ring
      rw [ih (i - s.length) (by omega), hmod]

theorem pollLoopAux_formula (fuel : Nat) :
    ∀ k n : Nat, 500 ≤ k + fuel → k ≤ 500 →
      pollLoopAux fuel ((k : ℚ) / 100) n = n + (500 - k) := by
  induction fuel with
  | zero =>
    intro k n h1 h2
    have hk : k = 500 := by omega
    subst hk
    simp [pollLoopAux]
  | succ fuel ih =>
    intro k n h1 h2
    simp only [pollLoopAux]
    by_cases h : ((k : ℚ) / 100) < 5
    · have hk : k < 500 := by
        have h100 : (0 : ℚ) < 100 := by norm_num
        have := (div_lt_iff₀ h100).mp h
        have hcast : (k : ℚ) < 500 := by linarith
        exact_mod_cast hcast
      rw [if_pos h]
      have heq : ((k : ℚ) / 100) + 1 / 100 = (((k + 1 : Nat) : ℚ)) / 100 := by
        push_cast
        ring
      rw [heq, ih (k + 1) (n + 1) (by omega) (by omega)]
      omega
    · have hk : ¬ k < 500 := by
        intro hlt
        apply h
        rw [div_lt_iff₀ (by norm_num : (0 : ℚ) < 100)]
        have hcast : (k : ℚ) < 500 := by exact_mod_cast hlt
        linarith
      rw [if_neg h]
      omega

theorem pollSleeps_eq : pollSleeps = 500 := by
  have h := pollLoopAux_formula 1000 0 0 (by omega) (by omega)
  simpa [pollSleeps] using h

/-! ## Claim theorems -/

/-- C1 (counterexample): with vocabulary a:0, b:1 and transcript content
"ab\na", parse_transcript returns [1], not the claimed [0, 1, 0]: the
Python filter(None, ...) also drops the label index 0 because 0 is falsy. -/
theorem C1_counterexample :
    parse_transcript ['a', 'b'] ("ab\na".toList) = [1] ∧
    parse_transcript ['a', 'b'] ("ab\na".toList) ≠ [0, 1, 0] := by
  exact ⟨by decide, by decide⟩

/-- C1 (amended): transcript parsing strips newline characters, maps every
remaining character through the vocabulary, preserves order, and drops both
characters with no mapping and characters mapped to index 0 (the falsy
value discarded by filter(None, ...)); for vocabulary a:0, b:1 and content
"ab\na" the parsed label sequence is [1]. -/
theorem C1_parse_transcript_amended :
    (∀ labels content,
      parse_transcript labels content = parse_transcript_spec labels content) ∧
    parse_transcript ['a', 'b'] ("ab\na".toList) = [1] := by
  constructor
  · intro labels content
    unfold parse_transcript parse_transcript_spec
    rw [filter_pyTruthy_reduceOption, List.filterMap_map]
    rfl
  · decide

/-- C4 (counterexample): on an empty buffer pop_meta_buffer performs 500
sleeps of 10 ms, a total wait of 5 seconds — far more than the claimed
approximately 50 ms (it is not even below 100 ms). -/
theorem C4_counterexample :
    (pop_meta_buffer []).1 = 500 ∧
    ((pop_meta_buffer []).1 : ℚ) * (1 / 100) = 5 ∧
    ¬ (((pop_meta_buffer []).1 : ℚ) * (1 / 100) ≤ 1 / 10) := by
  have h : (pop_meta_buffer []).1 = 500 := pollSleeps_eq
  refine ⟨h, ?_, ?_⟩
  · rw [h]; norm_num
  · rw [h]; norm_num

/-- C4 (amended): pop_meta_buffer polls in fixed 10 ms increments up to a
bounded total wait of 5 seconds (500 polls: the loop drives timeout to 5
in steps of 0.01); a non-empty buffer yields its oldest record and the
rest (FIFO pop(0)), and a buffer still empty at timeout makes the removal
from the empty list fail. -/
theorem C4_pop_meta_buffer_amended (buffer : List MetaRecord) :
    (buffer = [] →
      (pop_meta_buffer buffer).1 = 500 ∧
      (pop_meta_buffer buffer).2 =
        Except.error "IndexError: pop from empty list") ∧
    (∀ r rest, buffer = r :: rest →
      (pop_meta_buffer buffer).1 = 0 ∧
      (pop_meta_buffer buffer).2 = Except.ok (r, rest)) ∧
    (500 : ℚ) * (1 / 100) = 5 := by
  refine ⟨?_, ?_, by norm_num⟩
  · rintro rfl
    exact ⟨pollSleeps_eq, rfl⟩
  · rintro r rest rfl
    exact ⟨rfl, rfl⟩

/-- C4 witness: the amended theorem evaluated on the empty buffer and on a
singleton buffer. -/
theorem C4_witness :
    ((pop_meta_buffer []).1 = 500 ∧
      (pop_meta_buffer []).2 =
        Except.error "IndexError: pop from empty list") ∧
    ((pop_meta_buffer [default]).1 = 0 ∧
      (pop_meta_buffer [default]).2 = Except.ok (default, [])) :=
  ⟨(C4_pop_meta_buffer_amended []).1 rfl,
   (C4_pop_meta_buffer_amended [default]).2.1 default [] rfl⟩

/-- C6: for a decodable waveform of positive length L and target frame
count T > 0, load_audio returns a sequence of exactly T samples that is
periodic with period L (so for T > L its first L samples equal the source
and the tail wraps around), and for T ≤ L it is the plain prefix of length
T with no tiling. -/
theorem C6_load_audio_tiling (sound : List ℚ) (T : Int)
    (hL : 0 < sound.length) (hT : 0 < T) :
    ∃ out, load_audio_truncate sound T = Except.ok out ∧
      out.length = T.toNat ∧
      (∀ i, i < out.length → out[i]? = sound[i % sound.length]?) ∧
      (T ≤ (sound.length : Int) → out = sound.take T.toNat) ∧
      ((sound.length : Int) < T → out.take sound.length = sound) := by
  have hL0 : sound.length ≠ 0 := Nat.pos_iff_ne_zero.mp hL
  by_cases h2 : (sound.length : Int) < T
  · -- tiling branch: T exceeds the available length
    have hbranch : load_audio_truncate sound T =
        Except.ok ((tileConcat sound
          (Int.ceil (((T : ℚ) - (sound.length : ℚ)) / (sound.length : ℚ))).toNat
          sound).take T.toNat) := by
      unfold load_audio_truncate
      rw [if_pos hT, if_pos h2, if_neg hL0]
    set k : Nat :=
      (Int.ceil (((T : ℚ) - (sound.length : ℚ)) / (sound.length : ℚ))).toNat with hk
    have hLq : (0 : ℚ) < (sound.length : ℚ) := by exact_mod_cast hL
    have hTLq : (sound.length : ℚ) < (T : ℚ) := by exact_mod_cast h2
    have hcpos : 0 < Int.ceil (((T : ℚ) - (sound.length : ℚ)) / (sound.length : ℚ)) := by
      apply Int.ceil_pos.mpr
      exact div_pos (by linarith) hLq
    have hkc : (k : ℚ) = (Int.ceil (((T : ℚ) - (sound.length : ℚ)) / (sound.length : ℚ)) : ℚ) := by
      rw [hk]
      exact_mod_cast Int.toNat_of_nonneg (le_of_lt hcpos)
    have hceil : ((T : ℚ) - (sound.length : ℚ)) / (sound.length : ℚ) ≤ (k : ℚ) := by
      rw [hkc]
      exact Int.le_ceil _
    have hTk : (T : ℚ) ≤ ((k + 1 : Nat) : ℚ) * (sound.length : ℚ) := by
      have := (div_le_iff₀ hLq).mp hceil
      push_cast
      linarith
    have hTN : T.toNat ≤ (k + 1) * sound.length := by
      have hTq : ((T.toNat : Nat) : ℚ) = (T : ℚ) := by
        have := Int.toNat_of_nonneg (le_of_lt hT)
        exact_mod_cast this
      have : ((T.toNat : Nat) : ℚ) ≤ (((k + 1) * sound.length : Nat) : ℚ) := by
        rw [hTq]
        push_cast
        push_cast at hTk
        linarith
      exact_mod_cast this
    have htile : tileConcat sound k sound = (List.replicate (k + 1) sound).flatten := by
      rw [tileConcat_eq, List.replicate_succ, List.flatten_cons]
    have hlen : (tileConcat sound k sound).length = (k + 1) * sound.length := by
      rw [htile, flatten_replicate_length]
    refine ⟨(tileConcat sound k sound).take T.toNat, hbranch, ?_, ?_, ?_, ?_⟩
    · rw [List.length_take, hlen]
      omega
    · intro i hi
      rw [List.length_take, hlen] at hi
      have hiT : i < T.toNat := lt_of_lt_of_le hi (min_le_left _ _)
      rw [List.getElem?_take, if_pos hiT, htile]
      exact flatten_replicate_getElem (k + 1) sound i (by omega)
    · intro hcon
      omega
    · intro _
      have hLT : sound.length < T.toNat := by omega
      apply List.ext_getElem?
      intro j
      by_cases hj : j < sound.length
      · rw [List.getElem?_take, if_pos hj, List.getElem?_take,
          if_pos (by omega : j < T.toNat), htile]
        rw [flatten_replicate_getElem (k + 1) sound j (by
          have : sound.length ≤ (k + 1) * sound.length := by
            calc sound.length = 1 * sound.length := by ring
            _ ≤ (k + 1) * sound.length := by
              apply Nat.mul_le_mul_right
              omega
          omega)]
        rw [Nat.mod_eq_of_lt hj]
      · push_neg at hj
        rw [List.getElem?_take, if_neg (by omega)]
        exact (List.getElem?_eq_none hj).symm
  · -- plain truncation branch: T ≤ available length
    push_neg at h2
    have hbranch : load_audio_truncate sound T = Except.ok (sound.take T.toNat) := by
      unfold load_audio_truncate
      rw [if_pos hT, if_neg (not_lt.mpr h2)]
    have hTL : T.toNat ≤ sound.length := by omega
    refine ⟨sound.take T.toNat, hbranch, ?_, ?_, ?_, ?_⟩
    · rw [List.length_take]
      omega
    · intro i hi
      rw [List.length_take] at hi
      have hiT : i < T.toNat := lt_of_lt_of_le hi (min_le_left _ _)
      rw [List.getElem?_take, if_pos hiT,
        Nat.mod_eq_of_lt (by omega : i < sound.length)]
    · intro _
      rfl
    · intro hcon
      omega

/-- Shape and padding facts about the padded input tensor built by every
collator: N blocks, channel dimension 1, freq_size rows of max_seqlength
columns each, and the allocation fill 0 at every column at or beyond the
sample's own time length. -/
theorem collateInputs_spec (F M : Nat) (spects : List (List (List ℚ))) :
    (collateInputs F M spects).length = spects.length ∧
    ∀ (i : Nat) (sp : List (List ℚ)), spects[i]? = some sp →
      ∃ block : List (List (List ℚ)),
        (collateInputs F M spects)[i]? = some block ∧
        block.length = 1 ∧
        ∀ ch ∈ block,
          ch.length = F ∧ (∀ row ∈ ch, row.length = M) ∧
          (∀ r t, r < F → size1 sp ≤ t → t < M → matEntry ch r t = some 0) := by
  constructor
  · simp [collateInputs]
  · intro i sp hi
    refine ⟨[copyInto F M sp], ?_, rfl, ?_⟩
    · simp [collateInputs, List.getElem?_map, hi]
    · intro ch hch
      rw [List.mem_singleton] at hch
      subst hch
      refine ⟨?_, ?_, ?_⟩
      · simp [copyInto]
      · intro row hrow
        simp only [copyInto, List.mem_map] at hrow
        obtain ⟨r, _, rfl⟩ := hrow
        simp
      · intro r t hr ht1 ht2
        simp [matEntry, copyInto, List.getElem?_map, List.getElem?_range hr,
          List.getElem?_range ht2, Nat.not_lt.mpr ht1]

/-- C5: for every non-empty batch with a common frequency-bin count F, the
plain collator succeeds and returns an input tensor of shape
[N, 1, F, max_time] with max_time the largest time length in the batch;
every column at or beyond a sample's actual time length is zero and its
valid-length fraction is actual_time_frames / max_time. -/
theorem C5_collate_fn_shape_padding (b : Sample) (bs : List Sample) (F : Nat)
    (hF : ∀ s ∈ b :: bs, size0 s.spect = F) :
    ∃ out, collate_fn (b :: bs) = Except.ok out ∧
      out.inputs.length = (b :: bs).length ∧
      (∀ (i : Nat) (s : Sample), (b :: bs)[i]? = some s →
        ∃ block : List (List (List ℚ)),
          out.inputs[i]? = some block ∧
          block.length = 1 ∧
          ∀ ch ∈ block,
            ch.length = F ∧
            (∀ row ∈ ch,
              row.length = maxTimeLength ((b :: bs).map (fun q => size1 q.spect))) ∧
            (∀ r t, r < F → size1 s.spect ≤ t →
              t < maxTimeLength ((b :: bs).map (fun q => size1 q.spect)) →
              matEntry ch r t = some 0)) ∧
      (∀ (i : Nat) (s : Sample), (b :: bs)[i]? = some s →
        out.input_percentages[i]? =
          some ((size1 s.spect : ℚ) /
            (maxTimeLength ((b :: bs).map (fun q => size1 q.spect)) : ℚ))) := by
  have hkey : size1 (pyMaxAux (fun p => size1 p.spect) b bs).spect =
      maxTimeLength ((b :: bs).map (fun q => size1 q.spect)) :=
    pyMaxAux_key (fun p => size1 p.spect) b bs
  have hFmax : size0 (pyMaxAux (fun p => size1 p.spect) b bs).spect = F :=
    hF _ (pyMaxAux_mem (fun p => size1 p.spect) b bs)
  have hcoll : collate_fn (b :: bs) = Except.ok
      { inputs := collateInputs F
          (maxTimeLength ((b :: bs).map (fun q => size1 q.spect)))
          ((b :: bs).map Sample.spect)
        targets := ((b :: bs).map Sample.target).flatten
        input_percentages := (b :: bs).map (fun s => (size1 s.spect : ℚ) /
          (maxTimeLength ((b :: bs).map (fun q => size1 q.spect)) : ℚ))
        target_sizes := (b :: bs).map (fun s => s.target.length) } := by
    simp only [collate_fn]
    rw [hFmax, hkey]
  refine ⟨_, hcoll, ?_, ?_, ?_⟩
  · simpa using (collateInputs_spec F
      (maxTimeLength ((b :: bs).map (fun q => size1 q.spect)))
      ((b :: bs).map Sample.spect)).1
  · intro i s hi
    exact (collateInputs_spec F
      (maxTimeLength ((b :: bs).map (fun q => size1 q.spect)))
      ((b :: bs).map Sample.spect)).2 i s.spect
      (by rw [List.getElem?_map, hi]; rfl)
  · intro i s hi
    show ((b :: bs).map (fun s => (size1 s.spect : ℚ) /
      (maxTimeLength ((b :: bs).map (fun q => size1 q.spect)) : ℚ)))[i]? = _
    rw [List.getElem?_map, hi]
    rfl

/-- C5 witness: the scenario batch with time lengths 5 and 8 over 4
frequency bins. -/
theorem C5_witness :
    ∃ out, collate_fn [⟨List.replicate 4 (List.replicate 5 1), [0]⟩,
        ⟨List.replicate 4 (List.replicate 8 2), [1]⟩] = Except.ok out ∧
      out.inputs.length = ([⟨List.replicate 4 (List.replicate 5 1), [0]⟩,
        ⟨List.replicate 4 (List.replicate 8 2), [1]⟩] : List Sample).length ∧
      (∀ (i : Nat) (s : Sample), ([⟨List.replicate 4 (List.replicate 5 1), [0]⟩,
          ⟨List.replicate 4 (List.replicate 8 2), [1]⟩] : List Sample)[i]? = some s →
        ∃ block : List (List (List ℚ)),
          out.inputs[i]? = some block ∧
          block.length = 1 ∧
          ∀ ch ∈ block,
            ch.length = 4 ∧
            (∀ row ∈ ch,
              row.length = maxTimeLength
                (([⟨List.replicate 4 (List.replicate 5 1), [0]⟩,
                  ⟨List.replicate 4 (List.replicate 8 2), [1]⟩] : List Sample).map
                  (fun q => size1 q.spect))) ∧
            (∀ r t, r < 4 → size1 s.spect ≤ t →
              t < maxTimeLength
                (([⟨List.replicate 4 (List.replicate 5 1), [0]⟩,
                  ⟨List.replicate 4 (List.replicate 8 2), [1]⟩] : List Sample).map
                  (fun q => size1 q.spect)) →
              matEntry ch r t = some 0)) ∧
      (∀ (i : Nat) (s : Sample), ([⟨List.replicate 4 (List.replicate 5 1), [0]⟩,
          ⟨List.replicate 4 (List.replicate 8 2), [1]⟩] : List Sample)[i]? = some s →
        out.input_percentages[i]? =
          some ((size1 s.spect : ℚ) /
            (maxTimeLength (([⟨List.replicate 4 (List.replicate 5 1), [0]⟩,
              ⟨List.replicate 4 (List.replicate 8 2), [1]⟩] : List Sample).map
              (fun q => size1 q.spect)) : ℚ))) :=
  C5_collate_fn_shape_padding
    ⟨List.replicate 4 (List.replicate 5 1), [0]⟩
    [⟨List.replicate 4 (List.replicate 8 2), [1]⟩] 4 (by decide)

theorem le_maxTimeLength {l : List Nat} {x : Nat} (h : x ∈ l) :
    x ≤ maxTimeLength l :=
  le_foldr_max h

theorem map_getElem?_eq {α β : Type} (f : α → β) (l : List α) (i : Nat)
    (a : α) (h : l[i]? = some a) : (l.map f)[i]? = some (f a) := by
  rw [List.getElem?_map, h]
  rfl

theorem range_map_getD (row : List ℚ) (f : ℚ → FVal) :
    (List.range row.length).map (fun cc => f (row.getD cc 0)) = row.map f := by
  apply List.ext_getElem?
  intro i
  rw [List.getElem?_map, List.getElem?_map]
  by_cases hi : i < row.length
  · rw [List.getElem?_range hi, List.getElem?_eq_getElem hi]
    show some (f (row.getD i 0)) = some (f row[i])
    rw [List.getD_eq_getElem row 0 hi]
  · push_neg at hi
    rw [List.getElem?_eq_none (by simpa using hi), List.getElem?_eq_none hi]
    simp

/-- Shape and padding facts about one sample's slice of the padded logits
tensor: max_aux_len rows, the sample's own rows copied at the front, and
every trailing row entirely the fill value negative infinity. -/
theorem fillLogits_spec (L C : Nat) (logit : List (List ℚ))
    (hL : logit.length ≤ L) (hrect : ∀ row ∈ logit, row.length = C) :
    (fillLogits L C logit).length = L ∧
    (∀ r : Nat, logit.length ≤ r → r < L →
      (fillLogits L C logit)[r]? = some (List.replicate C FVal.ninf)) ∧
    (∀ (r : Nat) (row : List ℚ), logit[r]? = some row →
      (fillLogits L C logit)[r]? = some (row.map FVal.fin)) := by
  refine ⟨by simp [fillLogits], ?_, ?_⟩
  · intro r h1 h2
    simp [fillLogits, List.getElem?_map, List.getElem?_range h2,
      Nat.not_lt.mpr h1]
  · intro r row hrow
    have hr : r < logit.length := by
      by_contra hc
      push_neg at hc
      rw [List.getElem?_eq_none hc] at hrow
      exact Option.noConfusion hrow
    have hgd : logit.getD r [] = row := by
      rw [List.getD_eq_getElem logit [] hr]
      rw [List.getElem?_eq_getElem hr] at hrow
      exact Option.some_inj.mp hrow
    have hCr : row.length = C := hrect row (List.getElem?_mem hrow)
    have hrL : r < L := lt_of_lt_of_le hr hL
    show ((List.range L).map (fun j => if j < logit.length then
        (List.range C).map (fun cc => FVal.fin ((logit.getD j []).getD cc 0))
      else List.replicate C FVal.ninf))[r]? = some (row.map FVal.fin)
    rw [map_getElem?_eq _ _ r r (List.getElem?_range hrL)]
    rw [if_pos hr, hgd, ← hCr, range_map_getD]

/-- C8: for every non-empty batch with uniform class count, the logits
collator returns an auxiliary tensor of shape [N, max_aux_len, classes];
each sample's logits occupy its leading rows and every trailing row is
entirely negative infinity. -/
theorem C8_collate_fn_logits_aux_padding (b : LogitSample)
    (bs : List LogitSample) (C : Nat) (hb : b.logit ≠ [])
    (hC : ∀ s ∈ b :: bs, ∀ row ∈ s.logit, row.length = C) :
    ∃ out, collate_fn_logits (b :: bs) = Except.ok out ∧
      ∃ L : List (List (List FVal)), out.logits = some L ∧
        L.length = (b :: bs).length ∧
        (∀ (i : Nat) (s : LogitSample), (b :: bs)[i]? = some s →
          ∃ block : List (List FVal), L[i]? = some block ∧
            block.length =
              maxTimeLength ((b :: bs).map (fun q => q.logit.length)) ∧
            (∀ r : Nat, s.logit.length ≤ r →
              r < maxTimeLength ((b :: bs).map (fun q => q.logit.length)) →
              block[r]? = some (List.replicate C FVal.ninf)) ∧
            (∀ (r : Nat) (row : List ℚ), s.logit[r]? = some row →
              block[r]? = some (row.map FVal.fin))) := by
  have hkey : (pyMaxAux (fun p => p.logit.length) b bs).logit.length =
      maxTimeLength ((b :: bs).map (fun q => q.logit.length)) :=
    pyMaxAux_key (fun p => p.logit.length) b bs
  have hcls : size1 b.logit = C := by
    obtain ⟨r0, rest, hbl⟩ := List.exists_cons_of_ne_nil hb
    have hr0 : r0 ∈ b.logit := by
      rw [hbl]
      exact List.mem_cons_self r0 rest
    have := hC b (List.mem_cons_self b bs) r0 hr0
    rw [hbl]
    simpa [size1] using this
  have hcoll : collate_fn_logits (b :: bs) = Except.ok
      { inputs := collateInputs
          (size0 (pyMaxAux (fun p => size1 p.spect) b bs).spect)
          (size1 (pyMaxAux (fun p => size1 p.spect) b bs).spect)
          ((b :: bs).map LogitSample.spect)
        targets := ((b :: bs).map LogitSample.target).flatten
        input_percentages := (b :: bs).map (fun s => (size1 s.spect : ℚ) /
          ((size1 (pyMaxAux (fun p => size1 p.spect) b bs).spect : Nat) : ℚ))
        target_sizes := (b :: bs).map (fun s => s.target.length)
        paths := (b :: bs).map LogitSample.path
        logits := some ((b :: bs).map (fun s => fillLogits
          (maxTimeLength ((b :: bs).map (fun q => q.logit.length))) C s.logit)) } := by
    simp only [collate_fn_logits]
    rw [hkey, hcls]
  refine ⟨_, hcoll, (b :: bs).map (fun s => fillLogits
      (maxTimeLength ((b :: bs).map (fun q => q.logit.length))) C s.logit),
    rfl, by simp, ?_⟩
  intro i s hi
  have hmem : s ∈ b :: bs := List.getElem?_mem hi
  have hsle : s.logit.length ≤
      maxTimeLength ((b :: bs).map (fun q => q.logit.length)) :=
    le_maxTimeLength (List.mem_map_of_mem (fun q => q.logit.length) hmem)
  obtain ⟨hlen, hninf, hcopy⟩ := fillLogits_spec
    (maxTimeLength ((b :: bs).map (fun q => q.logit.length))) C s.logit hsle
    (hC s hmem)
  refine ⟨fillLogits (maxTimeLength ((b :: bs).map (fun q => q.logit.length)))
      C s.logit, ?_, hlen, hninf, hcopy⟩
  rw [List.getElem?_map, hi]
  rfl

/-- C8 witness: the scenario batch with auxiliary lengths 3 and 6 and 10
classes. -/
theorem C8_witness :
    ∃ out, collate_fn_logits [c8sampleA, c8sampleB] = Except.ok out ∧
      ∃ L : List (List (List FVal)), out.logits = some L ∧
        L.length = ([c8sampleA, c8sampleB] : List LogitSample).length ∧
        (∀ (i : Nat) (s : LogitSample),
          ([c8sampleA, c8sampleB] : List LogitSample)[i]? = some s →
          ∃ block : List (List FVal), L[i]? = some block ∧
            block.length = maxTimeLength
              (([c8sampleA, c8sampleB] : List LogitSample).map
                (fun q => q.logit.length)) ∧
            (∀ r : Nat, s.logit.length ≤ r →
              r < maxTimeLength (([c8sampleA, c8sampleB] : List LogitSample).map
                (fun q => q.logit.length)) →
              block[r]? = some (List.replicate 10 FVal.ninf)) ∧
            (∀ (r : Nat) (row : List ℚ), s.logit[r]? = some row →
              block[r]? = some (row.map FVal.fin))) :=
  C8_collate_fn_logits_aux_padding c8sampleA [c8sampleB] 10
    (by decide) (by decide)

/-- C7: in every collator variant (plain, paths, logits, and the metadata
loader's own), the flattened targets are the concatenation of the
per-sample label sequences in input order with no delimiters, and the sum
of the per-sample label lengths equals the flattened length. -/
theorem C7_targets_flattened (b1 : Sample) (bs1 : List Sample)
    (b2 : PathSample) (bs2 : List PathSample)
    (b3 : LogitSample) (bs3 : List LogitSample)
    (gm : Nat → MetaTuple) (st : LoaderState) (b4 : Sample)
    (bs4 : List Sample) :
    (∃ out, collate_fn (b1 :: bs1) = Except.ok out ∧
      out.targets = ((b1 :: bs1).map Sample.target).flatten ∧
      out.target_sizes = (b1 :: bs1).map (fun s => s.target.length) ∧
      out.target_sizes.sum = out.targets.length) ∧
    (∃ out, collate_fn_paths (b2 :: bs2) = Except.ok out ∧
      out.targets = ((b2 :: bs2).map PathSample.target).flatten ∧
      out.target_sizes = (b2 :: bs2).map (fun s => s.target.length) ∧
      out.target_sizes.sum = out.targets.length) ∧
    (∃ out, collate_fn_logits (b3 :: bs3) = Except.ok out ∧
      out.targets = ((b3 :: bs3).map LogitSample.target).flatten ∧
      out.target_sizes = (b3 :: bs3).map (fun s => s.target.length) ∧
      out.target_sizes.sum = out.targets.length) ∧
    (∃ out md st2, my_collate_fn gm st (b4 :: bs4) = Except.ok (out, md, st2) ∧
      out.targets = ((b4 :: bs4).map Sample.target).flatten ∧
      out.target_sizes = (b4 :: bs4).map (fun s => s.target.length) ∧
      out.target_sizes.sum = out.targets.length) := by
  refine ⟨⟨_, rfl, rfl, rfl, ?_⟩, ⟨_, rfl, rfl, rfl, ?_⟩,
    ⟨_, rfl, rfl, rfl, ?_⟩, ⟨_, _, _, rfl, rfl, rfl, ?_⟩⟩ <;>
  · rw [List.length_flatten, List.map_map]
    rfl

/-- C10: the path-variant collation returns the full six-component tuple
(inputs, targets, input_percentages, target_sizes, paths, aux) whose sixth
component is the literal None, with the paths collected in batch order. -/
theorem C10_collate_fn_paths_ends_none (b : PathSample) (bs : List PathSample) :
    ∃ out, collate_fn_paths (b :: bs) = Except.ok out ∧
      out.logits = none ∧
      out.paths = (b :: bs).map PathSample.path :=
  ⟨_, rfl, rfl, rfl⟩

theorem metaFoldStep_foldl (tl : List ItemMeta) :
    ∀ (s : ItemMeta) (acc : List ItemMeta),
      tl.foldl metaFoldStep (some s, acc) =
        (some (tl.foldl aggStep s), acc ++ tl) := by
  induction tl with
  | nil => intro s acc; simp
  | cons a as ih =>
    intro s acc
    simp only [List.foldl_cons]
    rw [show metaFoldStep (some s, acc) a = (some (aggStep s a), acc ++ [a])
      from rfl]
    rw [ih]
    simp

theorem foldl_aggStep_fields (tl : List ItemMeta) :
    ∀ s : ItemMeta,
      (tl.foldl aggStep s).audio_path = s.audio_path ∧
      (tl.foldl aggStep s).transcript_path = s.transcript_path ∧
      (tl.foldl aggStep s).duration =
        s.duration + (tl.map ItemMeta.duration).sum ∧
      (tl.foldl aggStep s).size_kb =
        s.size_kb + (tl.map ItemMeta.size_kb).sum ∧
      (tl.foldl aggStep s).seq_length =
        s.seq_length + (tl.map ItemMeta.seq_length).sum := by
  induction tl with
  | nil => intro s; simp
  | cons a as ih =>
    intro s
    obtain ⟨h1, h2, h3, h4, h5⟩ := ih (aggStep s a)
    simp only [List.foldl_cons, List.map_cons, List.sum_cons]
    refine ⟨?_, ?_, ?_, ?_, ?_⟩
    · rw [h1]; rfl
    · rw [h2]; rfl
    · rw [h3]
      show s.duration + a.duration + _ = _
      ring
    · rw [h4]
      show s.size_kb + a.size_kb + _ = _
      ring
    · rw [h5]
      show s.seq_length + a.seq_length + _ = _
      ring

theorem metaFold_cons_eq (gm : Nat → MetaTuple) (hist : List Nat) (b : Sample)
    (bs : List Sample) :
    metaFold gm hist (b :: bs) =
      (some ((metaTail gm hist b bs).foldl aggStep
        (itemOf gm hist (b :: bs) 0)),
       metaTail gm hist b bs) := by
  unfold metaFold metaItems metaTail
  rw [show (b :: bs).length = bs.length + 1 from rfl, List.range_succ_eq_map,
    List.map_cons, List.foldl_cons, List.map_map]
  rw [show metaFoldStep (none, []) (itemOf gm hist (b :: bs) 0) =
      (some (itemOf gm hist (b :: bs) 0), []) from rfl]
  rw [metaFoldStep_foldl]
  simp
  rfl

theorem item_meta_final_cons (gm : Nat → MetaTuple) (hist : List Nat)
    (b : Sample) (bs : List Sample) :
    item_meta_final gm hist (b :: bs) =
      ((metaTail gm hist b bs).foldl aggStep (itemOf gm hist (b :: bs) 0)) ::
        metaTail gm hist b bs := by
  unfold item_meta_final
  rw [metaFold_cons_eq]

/-- C2 (amended): during metadata collation, entry i of the pushed
item-level list equals sample i's own (path, transcript_path, duration,
size_kb, actual_time_frames) for every i >= 1; entry 0, however, is the
very object used as the running batch aggregate (batch_meta aliases
item_meta[0]), so after collation its positions 2, 3 and 4 hold the batch
sums of duration, size and time frames, with sample 0's path fields.
The hypothesis keeps access_history at least as long as the batch, the
regime in which the source indexing does not raise IndexError. -/
theorem C2_my_collate_meta_amended (gm : Nat → MetaTuple) (st : LoaderState)
    (b : Sample) (bs : List Sample)
    (_hh : (b :: bs).length ≤ st.access_history.length) :
    ∃ out md st2, my_collate_fn gm st (b :: bs) = Except.ok (out, md, st2) ∧
      md.item.length = (b :: bs).length ∧
      (∀ i : Nat, 1 ≤ i → i < (b :: bs).length →
        md.item[i]? = some (itemOf gm st.access_history (b :: bs) i)) ∧
      (∃ hd : ItemMeta, md.item[0]? = some hd ∧ md.batch = some hd ∧
        hd.audio_path = (gm (st.access_history.getD 0 0)).audio_path ∧
        hd.transcript_path = (gm (st.access_history.getD 0 0)).transcript_path ∧
        hd.duration = ((List.range (b :: bs).length).map
          (fun x => (itemOf gm st.access_history (b :: bs) x).duration)).sum ∧
        hd.size_kb = ((List.range (b :: bs).length).map
          (fun x => (itemOf gm st.access_history (b :: bs) x).size_kb)).sum ∧
        hd.seq_length = ((List.range (b :: bs).length).map
          (fun x => (itemOf gm st.access_history (b :: bs) x).seq_length)).sum) ∧
      st2.access_history = [] := by
  refine ⟨_, _, _, rfl, ?_, ?_, ?_, rfl⟩
  · show (item_meta_final gm st.access_history (b :: bs)).length = _
    rw [item_meta_final_cons]
    simp [metaTail]
  · intro i h1 h2
    obtain ⟨j, rfl⟩ : ∃ j, i = j + 1 := ⟨i - 1, by omega⟩
    show (item_meta_final gm st.access_history (b :: bs))[j + 1]? = _
    rw [item_meta_final_cons, List.getElem?_cons_succ]
    unfold metaTail
    exact map_getElem?_eq _ _ j j (List.getElem?_range (by
      simp only [List.length_cons] at h2
      omega))
  · obtain ⟨f1, f2, f3, f4, f5⟩ := foldl_aggStep_fields
      (metaTail gm st.access_history b bs) (itemOf gm st.access_history (b :: bs) 0)
    refine ⟨(metaTail gm st.access_history b bs).foldl aggStep
      (itemOf gm st.access_history (b :: bs) 0), ?_, ?_, ?_, ?_, ?_, ?_, ?_⟩
    · show (item_meta_final gm st.access_history (b :: bs))[0]? = _
      rw [item_meta_final_cons]
      exact List.getElem?_cons_zero
    · show (metaFold gm st.access_history (b :: bs)).1 = _
      rw [metaFold_cons_eq]
    · exact f1
    · exact f2
    · rw [f3, show (b :: bs).length = bs.length + 1 from rfl,
        List.range_succ_eq_map, List.map_cons, List.sum_cons]
      unfold metaTail
      rw [List.map_map, List.map_map]
      rfl
    · rw [f4, show (b :: bs).length = bs.length + 1 from rfl,
        List.range_succ_eq_map, List.map_cons, List.sum_cons]
      unfold metaTail
      rw [List.map_map, List.map_map]
      rfl
    · rw [f5, show (b :: bs).length = bs.length + 1 from rfl,
        List.range_succ_eq_map, List.map_cons, List.sum_cons]
      unfold metaTail
      rw [List.map_map, List.map_map]
      rfl

/-- C2 counterexample: on a two-sample batch the record pushed by
my_collate_fn has an item-level entry 0 holding the batch sums
(duration 3 = 1 + 2, size 7 = 2 + 5, frames 5 = 3 + 2) — the aggregate
object itself — and not sample 0's own values (1, 2, 3). -/
theorem C2_counterexample :
    (∃ out md st2, my_collate_fn gmC2
        { iter := 0, meta_buffer := [], access_history := [0, 1] }
        batchC2 = Except.ok (out, md, st2) ∧
      md.item[0]? = some c2aggregate) ∧
    c2aggregate ≠ c2own := by
  constructor
  · refine ⟨_, _, _, rfl, ?_⟩
    show (item_meta_final gmC2
      ({ iter := 0, meta_buffer := [], access_history := [0, 1] } :
        LoaderState).access_history batchC2)[0]? = some c2aggregate
    rw [show batchC2 = c2sampleA :: [c2sampleB] from rfl,
      item_meta_final_cons, List.getElem?_cons_zero]
    show some (aggStep (itemOf gmC2 [0, 1] (c2sampleA :: [c2sampleB]) 0)
      (itemOf gmC2 [0, 1] (c2sampleA :: [c2sampleB]) 1)) = some c2aggregate
    norm_num [aggStep, itemOf, gmC2, c2sampleA, c2sampleB, c2aggregate, size1]
  · intro hcon
    have : c2aggregate.duration = c2own.duration := by rw [hcon]
    norm_num [c2aggregate, c2own] at this

/-- C2 witness: the amended theorem evaluated on the concrete two-sample
batch. -/
theorem C2_witness :
    ∃ out md st2, my_collate_fn gmC2
        { iter := 0, meta_buffer := [], access_history := [0, 1] }
        (c2sampleA :: [c2sampleB]) = Except.ok (out, md, st2) ∧
      md.item.length = (c2sampleA :: [c2sampleB]).length ∧
      (∀ i : Nat, 1 ≤ i → i < (c2sampleA :: [c2sampleB]).length →
        md.item[i]? = some (itemOf gmC2 [0, 1] (c2sampleA :: [c2sampleB]) i)) ∧
      (∃ hd : ItemMeta, md.item[0]? = some hd ∧ md.batch = some hd ∧
        hd.audio_path = (gmC2 ([0, 1].getD 0 0)).audio_path ∧
        hd.transcript_path = (gmC2 ([0, 1].getD 0 0)).transcript_path ∧
        hd.duration = ((List.range (c2sampleA :: [c2sampleB]).length).map
          (fun x => (itemOf gmC2 [0, 1] (c2sampleA :: [c2sampleB]) x).duration)).sum ∧
        hd.size_kb = ((List.range (c2sampleA :: [c2sampleB]).length).map
          (fun x => (itemOf gmC2 [0, 1] (c2sampleA :: [c2sampleB]) x).size_kb)).sum ∧
        hd.seq_length = ((List.range (c2sampleA :: [c2sampleB]).length).map
          (fun x => (itemOf gmC2 [0, 1] (c2sampleA :: [c2sampleB]) x).seq_length)).sum) ∧
      st2.access_history = [] :=
  C2_my_collate_meta_amended gmC2
    { iter := 0, meta_buffer := [], access_history := [0, 1] }
    c2sampleA [c2sampleB] (by decide)

/-- C3 (code bug): for every configuration with noise_dir set, constructing
the spectrogram parser does not succeed: SpectrogramParser.__init__ passes
three positional arguments (noise_dir, sample_rate, noise_levels) to
NoiseInjection.__init__, whose signature accepts only (path, noise_levels),
so construction raises TypeError instead of installing a noise injector. -/
theorem C3_parser_init_noise_dir_type_error (audio_conf : AudioConf)
    (normalize augment : Bool) (force_duration : ℚ) (d : String)
    (hd : audio_conf.noise_dir = some d) :
    SpectrogramParser_init audio_conf normalize augment force_duration =
      Except.error
        "TypeError: NoiseInjection.__init__ takes at most 2 positional arguments" := by
  unfold SpectrogramParser_init
  rw [hd]
  rfl

/-- C3 witness: the failing construction on a concrete configuration with
a noise directory. -/
theorem C3_witness :
    SpectrogramParser_init
      { window_stride := 1 / 100, window_size := 1 / 50, sample_rate := 16000,
        window := "hamming", noise_dir := some "/noise",
        noise_levels := (0, 1 / 2), noise_prob := some (2 / 5) }
      true false (-1) =
      Except.error
        "TypeError: NoiseInjection.__init__ takes at most 2 positional arguments" :=
  C3_parser_init_noise_dir_type_error _ true false (-1) "/noise" rfl

/-- C9 counterexample: the path-variant dataset's getitem does not append
the index to the access history: on a one-entry manifest with empty
history, fetching index 0 leaves the history empty rather than [0]. -/
theorem C9_counterexample :
    SpectrogramAndPathDataset_getitem (fun _ => []) (fun _ => []) ['a']
      { ids := [("a.wav", "a.txt")], access_history := [] } 0 =
      Except.ok ([], [], "a.wav",
        { ids := [("a.wav", "a.txt")], access_history := [] }) ∧
    ({ ids := [("a.wav", "a.txt")], access_history := [] } :
      DatasetState).access_history ≠ [0] := by
  exact ⟨rfl, by decide⟩

/-- C9 (amended): only the base SpectrogramDataset getitem appends its
index to the access history (and fails on an out-of-range index); the
path and logits dataset variants leave the history untouched; the metadata
loader's collation resets the history to empty after each batch. -/
theorem C9_access_history_amended :
    (∀ pa rf labels (st : DatasetState) (index : Nat) sample,
      st.ids[index]? = some sample →
      ∃ sp tr st2,
        SpectrogramDataset_getitem pa rf labels st index =
          Except.ok (sp, tr, st2) ∧
        st2.access_history = st.access_history ++ [index] ∧
        st2.ids = st.ids) ∧
    (∀ pa rf labels (st : DatasetState) (index : Nat),
      st.ids[index]? = none →
      ∃ e, SpectrogramDataset_getitem pa rf labels st index =
        Except.error e) ∧
    (∀ pa rf labels (st : DatasetState) (index : Nat) sample,
      st.ids[index]? = some sample →
      ∃ sp tr p, SpectrogramAndPathDataset_getitem pa rf labels st index =
        Except.ok (sp, tr, p, st)) ∧
    (∀ pa rf labels ll (st : DatasetState) (index : Nat) sample,
      st.ids[index]? = some sample →
      ∃ sp tr p lg,
        SpectrogramAndLogitsDataset_getitem pa rf labels ll st index =
          Except.ok (sp, tr, p, lg, st)) ∧
    (∀ gm (st : LoaderState) (b : Sample) (bs : List Sample),
      ∃ out md st2, my_collate_fn gm st (b :: bs) = Except.ok (out, md, st2) ∧
        st2.access_history = []) := by
  refine ⟨?_, ?_, ?_, ?_, ?_⟩
  · intro pa rf labels st index sample h
    refine ⟨pa sample.1, parse_transcript labels (rf sample.2),
      { st with access_history := st.access_history ++ [index] }, ?_, rfl, rfl⟩
    unfold SpectrogramDataset_getitem
    rw [h]
  · intro pa rf labels st index h
    refine ⟨"IndexError: list index out of range", ?_⟩
    unfold SpectrogramDataset_getitem
    rw [h]
  · intro pa rf labels st index sample h
    refine ⟨pa sample.1, parse_transcript labels (rf sample.2), sample.1, ?_⟩
    unfold SpectrogramAndPathDataset_getitem
    rw [h]
  · intro pa rf labels ll st index sample h
    refine ⟨pa sample.1, parse_transcript labels (rf sample.2), sample.1,
      ll (logit_path_of sample.1), ?_⟩
    unfold SpectrogramAndLogitsDataset_getitem
    rw [h]
  · intro gm st b bs
    exact ⟨_, _, _, rfl, rfl⟩

/-- C9 witness: the amended theorem evaluated on a concrete one-entry
manifest for all five behaviors. -/
theorem C9_witness :
    (∃ sp tr st2,
      SpectrogramDataset_getitem (fun _ => []) (fun _ => []) ['a']
        { ids := [("a.wav", "a.txt")], access_history := [] } 0 =
        Except.ok (sp, tr, st2) ∧
      st2.access_history =
        ({ ids := [("a.wav", "a.txt")], access_history := [] } :
          DatasetState).access_history ++ [0] ∧
      st2.ids = ({ ids := [("a.wav", "a.txt")], access_history := [] } :
        DatasetState).ids) ∧
    (∃ e, SpectrogramDataset_getitem (fun _ => []) (fun _ => []) ['a']
        { ids := [("a.wav", "a.txt")], access_history := [] } 5 =
        Except.error e) ∧
    (∃ sp tr p,
      SpectrogramAndPathDataset_getitem (fun _ => []) (fun _ => []) ['a']
        { ids := [("a.wav", "a.txt")], access_history := [] } 0 =
        Except.ok (sp, tr, p,
          { ids := [("a.wav", "a.txt")], access_history := [] })) ∧
    (∃ sp tr p lg,
      SpectrogramAndLogitsDataset_getitem (fun _ => []) (fun _ => []) ['a']
        (fun _ => []) { ids := [("a.wav", "a.txt")], access_history := [] } 0 =
        Except.ok (sp, tr, p, lg,
          { ids := [("a.wav", "a.txt")], access_history := [] })) ∧
    (∃ out md st2, my_collate_fn gmC2
        { iter := 0, meta_buffer := [], access_history := [0] }
        (c2sampleA :: []) = Except.ok (out, md, st2) ∧
      st2.access_history = []) :=
  ⟨C9_access_history_amended.1 (fun _ => []) (fun _ => []) ['a']
      { ids := [("a.wav", "a.txt")], access_history := [] } 0
      ("a.wav", "a.txt") rfl,
   C9_access_history_amended.2.1 (fun _ => []) (fun _ => []) ['a']
      { ids := [("a.wav", "a.txt")], access_history := [] } 5 rfl,
   C9_access_history_amended.2.2.1 (fun _ => []) (fun _ => []) ['a']
      { ids := [("a.wav", "a.txt")], access_history := [] } 0
      ("a.wav", "a.txt") rfl,
   C9_access_history_amended.2.2.2.1 (fun _ => []) (fun _ => []) ['a']
      (fun _ => []) { ids := [("a.wav", "a.txt")], access_history := [] } 0
      ("a.wav", "a.txt") rfl,
   C9_access_history_amended.2.2.2.2 gmC2
      { iter := 0, meta_buffer := [], access_history := [0] } c2sampleA []⟩

/-- C6 witness: tiling the three-sample waveform [1, 2, 3] to seven frames. -/
theorem C6_witness :
    ∃ out, load_audio_truncate [1, 2, 3] 7 = Except.ok out ∧
      out.length = (7 : Int).toNat ∧
      (∀ i, i < out.length →
        out[i]? = ([1, 2, 3] : List ℚ)[i % ([1, 2, 3] : List ℚ).length]?) ∧
      ((7 : Int) ≤ (([1, 2, 3] : List ℚ).length : Int) →
        out = ([1, 2, 3] : List ℚ).take (7 : Int).toNat) ∧
      ((([1, 2, 3] : List ℚ).length : Int) < 7 →
        out.take ([1, 2, 3] : List ℚ).length = [1, 2, 3]) :=
  C6_load_audio_tiling [1, 2, 3] 7 (by decide) (by decide)

end SpeechData
